import Mathlib

/-!
Verification of the `pad` repository (two CLI variants, `pad/pad.py` and
`picdate/picdate.py`) against its natural-language specification.

The Python source is shallowly embedded: the pure per-image computations
(date resolution, geometry offsets, font sizing, output-path computation,
task submission filtering) are translated into executable Lean functions;
the fallible steps of the single-image worker (`add_date_to_img`) are
modelled with `Except`, with the external imaging capability (PIL `open`,
`truetype`, `draw.text`, `mkdir`, `save`) supplied as an environment of
`Except` results, mirroring the points at which the Python code can raise.
Machine floats are modelled as exact rationals; Python integer `//` is `Nat`
division; `datetime.fromisoformat` is modelled on the textual grammar
`YYYY-MM-DD[<sep>HH:MM:SS[.fff|.ffffff]]` with calendar validation, which
covers the fixed EXIF layout the code documents.
-/

/-! ## Dates: `datetime.fromisoformat` on the transformed EXIF string -/

/-- A Python `datetime` value as this program produces one: either a civil
datetime parsed from text by `datetime.datetime.fromisoformat`, or the value
`datetime.datetime.fromtimestamp(t)` of an epoch timestamp `t` (the
conversion itself is external to the program and kept abstract). -/
inductive PyDateTime where
  | civil (year month day hour minute second microsecond : ℕ)
  | ofTimestamp (t : ℤ)
  deriving DecidableEq, Repr

/-- Value of a decimal digit character, `none` for a non-digit. -/
def digitVal (c : Char) : Option ℕ :=
  if '0' ≤ c ∧ c ≤ '9' then some (c.toNat - 48) else none

/-- Read exactly two digit characters as a number, returning the rest. -/
def read2 : List Char → Option (ℕ × List Char)
  | a :: b :: rest => do
    let x ← digitVal a
    let y ← digitVal b
    pure (10 * x + y, rest)
  | _ => none

/-- Read exactly four digit characters as a number, returning the rest. -/
def read4 : List Char → Option (ℕ × List Char)
  | a :: b :: c :: d :: rest => do
    let x ← digitVal a
    let y ← digitVal b
    let z ← digitVal c
    let w ← digitVal d
    pure (1000 * x + 100 * y + 10 * z + w, rest)
  | _ => none

/-- Expect a given character at the head of the list. -/
def expectChar (c : Char) : List Char → Option (List Char)
  | a :: rest => if a = c then some rest else none
  | [] => none

/-- Fractional-second part of an ISO time: exactly three or six digits,
consuming the whole remaining input, giving microseconds. -/
def parseFrac : List Char → Option ℕ
  | [a, b, c] => do
    let x ← digitVal a; let y ← digitVal b; let z ← digitVal c
    pure (1000 * (100 * x + 10 * y + z))
  | [a, b, c, d, e, f] => do
    let x ← digitVal a; let y ← digitVal b; let z ← digitVal c
    let u ← digitVal d; let v ← digitVal e; let w ← digitVal f
    pure (100000 * x + 10000 * y + 1000 * z + 100 * u + 10 * v + w)
  | _ => none

/-- Time part of an ISO datetime: `HH[:MM[:SS[.fff[fff]]]]`,
consuming the whole remaining input. -/
def parseTimePart (cs : List Char) : Option (ℕ × ℕ × ℕ × ℕ) := do
  let (hh, r1) ← read2 cs
  match r1 with
  | [] => pure (hh, 0, 0, 0)
  | ':' :: r2 =>
    let (mi, r3) ← read2 r2
    match r3 with
    | [] => pure (hh, mi, 0, 0)
    | ':' :: r4 =>
      let (ss, r5) ← read2 r4
      match r5 with
      | [] => pure (hh, mi, ss, 0)
      | '.' :: r6 => do
        let us ← parseFrac r6
        pure (hh, mi, ss, us)
      | _ => none
    | _ => none
  | _ => none

/-- Gregorian leap year, as `calendar.isleap`. -/
def isLeapYear (y : ℕ) : Bool :=
  (y % 4 = 0 && y % 100 ≠ 0) || y % 400 = 0

/-- Days in a month of the proleptic Gregorian calendar. -/
def daysInMonth (y m : ℕ) : ℕ :=
  if m = 2 then (if isLeapYear y then 29 else 28)
  else if m = 4 ∨ m = 6 ∨ m = 9 ∨ m = 11 then 30
  else 31

/-- Model of `datetime.datetime.fromisoformat` on a character list:
`YYYY-MM-DD`, optionally followed by one separator character and a time
`HH[:MM[:SS[.fff|.ffffff]]]`, with the range validation `datetime`
performs (year ≥ 1, month 1–12, day within the month, hour ≤ 23,
minute ≤ 59, second ≤ 59).  `none` models a raised `ValueError`. -/
def fromisoformat (cs : List Char) : Option PyDateTime := do
  let (y, r1) ← read4 cs
  let r2 ← expectChar '-' r1
  let (mo, r3) ← read2 r2
  let r4 ← expectChar '-' r3
  let (d, r5) ← read2 r4
  let (hh, mi, ss, us) ←
    match r5 with
    | [] => pure (0, 0, 0, 0)
    | _ :: timePart => parseTimePart timePart
  if 1 ≤ y ∧ 1 ≤ mo ∧ mo ≤ 12 ∧ 1 ≤ d ∧ d ≤ daysInMonth y mo ∧
      hh ≤ 23 ∧ mi ≤ 59 ∧ ss ≤ 59 then
    pure (.civil y mo d hh mi ss us)
  else none

/-- Python `s.replace(":", "-", n)`: replace the first `n` occurrences of
`':'` by `'-'` (the pattern is a single character here). -/
def replaceColons : List Char → ℕ → List Char
  | [], _ => []
  | c :: cs, 0 => c :: cs
  | c :: cs, n + 1 =>
    if c = ':' then '-' :: replaceColons cs n else c :: replaceColons cs (n + 1)

/-- The EXIF DateTimeOriginal parse both variants perform on the value of
tag 36867:  `datetime.datetime.fromisoformat(s.replace(":", "-", 2) + ".000")`.
`none` models the raised `ValueError`. -/
def parseExifDate (s : String) : Option PyDateTime :=
  fromisoformat (replaceColons s.toList 2 ++ ".000".toList)

/-! ## Data model: image handle, EXIF metadata, resolved date -/

/-- The EXIF metadata of one image, as the worker consumes it: the value of
tag 36867 (DateTimeOriginal) when present, and the stored orientation
(tag 274; `0` when absent). -/
structure ExifData where
  dateTimeOriginal : Option String
  orientation : ℕ
  deriving DecidableEq, Repr

/-- An opened image: its stored raster size and its metadata, if any.
This models the PIL image handle the worker obtains from `Image.open`. -/
structure ImageData where
  width : ℕ
  height : ℕ
  exif : Option ExifData
  deriving DecidableEq, Repr

/-- Effect of `PIL.ImageOps.exif_transpose` on the size of an image with the
given stored orientation: orientations 5–8 involve a transpose and swap
width and height; the others leave the size unchanged. -/
def exifTransposeSize (orientation w h : ℕ) : ℕ × ℕ :=
  if orientation = 5 ∨ orientation = 6 ∨ orientation = 7 ∨ orientation = 8
  then (h, w) else (w, h)

/-- Where a resolved date came from. -/
inductive DateSource where
  | metadataOriginal
  | fileModifiedTime
  deriving DecidableEq, Repr

/-- A resolved capture date: the instant and its source. -/
structure ResolvedDate where
  instant : PyDateTime
  source : DateSource
  deriving DecidableEq, Repr

/-- Errors a worker invocation can end in; each constructor names the Python
exception site it models inside `add_date_to_img`. -/
inductive WorkerError where
  | openError
  | valueError
  | zeroDivisionError
  | fractionParseError
  | fontError
  | drawError
  | mkdirError
  | keyError
  | saveError
  deriving DecidableEq, Repr

/-- The date-resolution block shared verbatim by `pad.add_date_to_img` and
`picdate.add_date_to_img`: if the EXIF map is absent or lacks tag 36867,
use `datetime.fromtimestamp(Path(inpath).stat().st_mtime)`; otherwise parse
the tag value, a `ValueError` aborting the task. -/
def resolve_date (exif : Option ExifData) (mtime : ℤ) :
    Except WorkerError ResolvedDate :=
  match exif with
  | none => .ok ⟨.ofTimestamp mtime, .fileModifiedTime⟩
  | some e =>
    match e.dateTimeOriginal with
    | none => .ok ⟨.ofTimestamp mtime, .fileModifiedTime⟩
    | some s =>
      match parseExifDate s with
      | none => .error .valueError
      | some d => .ok ⟨d, .metadataOriginal⟩

/-! ## Geometry: aspect-ratio fine tuning and font sizing -/

/-- Parse all characters as a decimal natural number (at least one digit). -/
def parseNatAll : List Char → Option ℕ :=
  go
where
  go : List Char → Option ℕ
    | [] => none
    | cs => loop cs 0
  loop : List Char → ℕ → Option ℕ
    | [], acc => some acc
    | c :: cs, acc =>
      match digitVal c with
      | none => none
      | some d => loop cs (10 * acc + d)

/-- Split a character list on a separator character, Python `str.split`
style: the empty input gives one empty group, a trailing separator an
empty final group. -/
def splitOnChar (c : Char) : List Char → List (List Char)
  | [] => [[]]
  | a :: rest =>
    let r := splitOnChar c rest
    if a = c then [] :: r
    else
      match r with
      | [] => [[a]]
      | g :: gs => (a :: g) :: gs

/-- Model of `fractions.Fraction(s)` on the ratio strings this program
takes (`"M"` or `"M/N"` over decimal digits; the claims use non-negative
ratios, so signs are not modelled).  `Fraction("M/0")` raises
`ZeroDivisionError`; any other unparsable string raises `ValueError`;
both are modelled as `none`. -/
def parseFraction (s : String) : Option ℚ :=
  match splitOnChar '/' s.toList with
  | [a] => (parseNatAll a).map fun n => (n : ℚ)
  | [a, b] => do
    let n ← parseNatAll a
    let d ← parseNatAll b
    if d = 0 then none else pure ((n : ℚ) / (d : ℚ))
  | _ => none

/-- The crop-offset block of `picdate.add_date_to_img` (lines 44–53) for a
parsed target ratio `r`, with the division-by-zero behaviour of the Python
code made explicit: `width / height` raises when `height = 0`, and the
landscape branch evaluates `1 / aspect_ratio` in its first guard, raising
when `r = 0`; the portrait branch only divides by `r` inside its second
branch body.  Floats are modelled as exact rationals (`0.01` as `1/100`). -/
def computeOffsetsE (r : ℚ) (w h : ℕ) : Except WorkerError (ℚ × ℚ) :=
  if h = 0 then .error .zeroDivisionError
  else if w > h then
    if r = 0 then .error .zeroDivisionError
    else if (w : ℚ) / (h : ℚ) > 1 / r + 1 / 100 then
      .ok (((w : ℚ) - 1 / r * (h : ℚ)) / 2, 0)
    else if (w : ℚ) / (h : ℚ) < 1 / r - 1 / 100 then
      .ok (0, ((h : ℚ) - r * (w : ℚ)) / 2)
    else .ok (0, 0)
  else
    if (w : ℚ) / (h : ℚ) > r + 1 / 100 then
      .ok (((w : ℚ) - r * (h : ℚ)) / 2, 0)
    else if (w : ℚ) / (h : ℚ) < r - 1 / 100 then
      if r = 0 then .error .zeroDivisionError
      else .ok (0, ((h : ℚ) - 1 / r * (w : ℚ)) / 2)
    else .ok (0, 0)

/-- The whole fine-tune block of `picdate.add_date_to_img` (lines 40–53):
offsets are `(0, 0)` when the configured string is `"none"`; otherwise the
string is parsed by `Fraction` (a parse failure aborting the task) and the
offsets computed from the resulting ratio. -/
def geometryOffsets (ratioStr : String) (w h : ℕ) :
    Except WorkerError (ℚ × ℚ) :=
  if ratioStr = "none" then .ok (0, 0)
  else
    match parseFraction ratioStr with
    | none => .error .fractionParseError
    | some r => computeOffsetsE r w h

/-- Being within the ±0.01 tolerance band of the target ratio: against
`1/r` for a landscape image, against `r` for a portrait-or-square one. -/
def withinTolerance (r : ℚ) (w h : ℕ) : Bool :=
  if w > h then |((w : ℚ) / (h : ℚ)) - 1 / r| ≤ 1 / 100
  else |((w : ℚ) / (h : ℚ)) - r| ≤ 1 / 100

/-- Python float floor division `x // y` on exact rationals. -/
def floorDivQ (x y : ℚ) : ℚ := ((⌊x / y⌋ : ℤ) : ℚ)

/-- Python `int(x)` on a float: truncation toward zero. -/
def pyInt (x : ℚ) : ℤ := if 0 ≤ x then ⌊x⌋ else ⌈x⌉

/-- Font size of `pad.add_date_to_img` line 34:
`(width if width > height else height) // 36`. -/
def padFontSize (w h : ℕ) : ℕ := (if w > h then w else h) / 36

/-- Font size of `picdate.add_date_to_img` lines 59–62:
`int(float(config["text_size"]) * max(width, height) // 152)`. -/
def picdateFontSize (w h : ℕ) (textSize : ℚ) : ℤ :=
  pyInt (floorDivQ (textSize * ((max w h : ℕ) : ℚ)) 152)

/-! ## The single-image worker -/

/-- The configuration dict both CLIs build (the fields the worker reads;
`pos_w`/`pos_h` of the pad variant and `pos_x`/`pos_y` of the picdate
variant are the same two fractional coordinates).  The pad variant's dict
has no `text_size` or fine-tune entry; the pad worker ignores those
fields. -/
structure Config where
  fmt : String
  posX : ℚ
  posY : ℚ
  textSize : ℚ
  fineTuneAspect : String
  quality : ℕ
  deriving DecidableEq, Repr

/-- One worker invocation's environment: the results of the external,
fallible steps of `add_date_to_img` (image decode, `stat` mtime, font
load, text draw, directory creation, save) and whether the raw
`img.info` map carries an `"exif"` entry to re-embed. -/
structure Env where
  openResult : Except WorkerError ImageData
  mtime : ℤ
  fontLoad : Except WorkerError Unit
  drawResult : Except WorkerError Unit
  mkdirResult : Except WorkerError Unit
  saveResult : Except WorkerError Unit
  infoExifPresent : Bool
  deriving Repr

/-- What a successful worker run computed and did, for inspection. -/
structure WorkerOutput where
  date : ResolvedDate
  geomW : ℕ
  geomH : ℕ
  offsetW : ℚ
  offsetH : ℚ
  drawX : ℚ
  drawY : ℚ
  fontSize : ℤ
  savedWithExif : Bool
  deriving DecidableEq, Repr

/-- The save block shared by both variants: `img.save(...)` plain when the
EXIF map was absent, otherwise `img.save(..., exif=img.info["exif"])`,
whose argument raises `KeyError` when `img.info` has no `"exif"` entry. -/
def saveStep (img : ImageData) (env : Env) : Except WorkerError Unit :=
  match img.exif with
  | none => env.saveResult
  | some _ => if env.infoExifPresent then env.saveResult else .error .keyError

/-- The dimensions `picdate.add_date_to_img` measures at line 39: the image
is rotated by `ImageOps.exif_transpose` (line 33) only on the branch where
the EXIF map is present and has tag 36867; otherwise the stored raster
size is used unchanged. -/
def picdateGeomDims (img : ImageData) : ℕ × ℕ :=
  match img.exif with
  | some e =>
    if e.dateTimeOriginal.isSome
    then exifTransposeSize e.orientation img.width img.height
    else (img.width, img.height)
  | none => (img.width, img.height)

/-- Body of the `try` block of `picdate.add_date_to_img` (lines 15–94):
open, resolve the date, transpose-and-measure, fine-tune offsets, font
size and load, draw, create parent directories, save. -/
def picdate_add_date_to_img_body (cfg : Config) (env : Env) :
    Except WorkerError WorkerOutput :=
  match env.openResult with
  | .error e => .error e
  | .ok img =>
    match resolve_date img.exif env.mtime with
    | .error e => .error e
    | .ok date =>
      let dims := picdateGeomDims img
      match geometryOffsets cfg.fineTuneAspect dims.1 dims.2 with
      | .error e => .error e
      | .ok offs =>
        let fs := picdateFontSize dims.1 dims.2 cfg.textSize
        match env.fontLoad with
        | .error e => .error e
        | .ok _ =>
          match env.drawResult with
          | .error e => .error e
          | .ok _ =>
            match env.mkdirResult with
            | .error e => .error e
            | .ok _ =>
              match saveStep img env with
              | .error e => .error e
              | .ok _ =>
                .ok { date := date
                      geomW := dims.1, geomH := dims.2
                      offsetW := offs.1, offsetH := offs.2
                      drawX := ((dims.1 : ℚ) - offs.1) * cfg.posX
                      drawY := ((dims.2 : ℚ) - offs.2) * cfg.posY
                      fontSize := fs
                      savedWithExif := img.exif.isSome }

/-- Body of the `try` block of `pad.add_date_to_img` (lines 12–64): open
and measure the stored raster size (line 14, before any orientation
handling — the pad variant never calls `exif_transpose`), resolve the
date, font size and load, draw at `(width * pos_w, height * pos_h)`,
create parent directories, save. -/
def pad_add_date_to_img_body (cfg : Config) (env : Env) :
    Except WorkerError WorkerOutput :=
  match env.openResult with
  | .error e => .error e
  | .ok img =>
    match resolve_date img.exif env.mtime with
    | .error e => .error e
    | .ok date =>
      match env.fontLoad with
      | .error e => .error e
      | .ok _ =>
        match env.drawResult with
        | .error e => .error e
        | .ok _ =>
          match env.mkdirResult with
          | .error e => .error e
          | .ok _ =>
            match saveStep img env with
            | .error e => .error e
            | .ok _ =>
              .ok { date := date
                    geomW := img.width, geomH := img.height
                    offsetW := 0, offsetH := 0
                    drawX := (img.width : ℚ) * cfg.posX
                    drawY := (img.height : ℚ) * cfg.posY
                    fontSize := (padFontSize img.width img.height : ℤ)
                    savedWithExif := img.exif.isSome }

/-- Outcome of one worker task as the scheduler sees it: the worker either
completed or logged a caught failure; there is no outcome in which an
exception escapes the worker. -/
inductive TaskOutcome where
  | completed (out : WorkerOutput)
  | failed (e : WorkerError)
  deriving DecidableEq, Repr

/-- `picdate.add_date_to_img`: the whole function, whose `try`/`except
Exception` converts every failure of the body into a logged per-task
failure result. -/
def picdate_add_date_to_img (cfg : Config) (env : Env) : TaskOutcome :=
  match picdate_add_date_to_img_body cfg env with
  | .ok o => .completed o
  | .error e => .failed e

/-- `pad.add_date_to_img`: the whole function, with the same
`try`/`except Exception` isolation. -/
def pad_add_date_to_img (cfg : Config) (env : Env) : TaskOutcome :=
  match pad_add_date_to_img_body cfg env with
  | .ok o => .completed o
  | .error e => .failed e

/-- The scheduler's await loop over the submitted tasks when every result
arrives in time: each task yields its own outcome and the loop continues
past failed tasks (a worker failure surfaces to `task.get` only as a
normal `None` return, the exception having been caught inside the
worker). -/
def runBatch (worker : Config → Env → TaskOutcome) (cfg : Config)
    (envs : List Env) : List TaskOutcome :=
  envs.map (worker cfg)

/-! ## The batch scheduler's submission loop (`add_date_in_dir_mt`) -/

/-- Replace every non-overlapping occurrence of `pat` in `s`, left to
right, fuel-driven (the fuel, the input length, never runs out since each
step consumes at least one character). -/
def replaceAllAux (pat rep : List Char) : ℕ → List Char → List Char
  | _, [] => []
  | 0, s => s
  | fuel + 1, c :: cs =>
    if pat.isPrefixOf (c :: cs) then
      rep ++ replaceAllAux pat rep fuel ((c :: cs).drop pat.length)
    else
      c :: replaceAllAux pat rep fuel cs

/-- Python `s.replace(pat, rep)`: every non-overlapping occurrence of
`pat` anywhere in `s` is replaced (the patterns this program passes are
never empty, so the empty-pattern case need not be modelled and is mapped
to the identity). -/
def pyReplace (s pat rep : String) : String :=
  if pat.isEmpty then s
  else ⟨replaceAllAux pat.toList rep.toList s.toList.length s.toList⟩

/-- The out-path computation of `add_date_in_dir_mt` (pad lines 92–94,
picdate lines 123–125):
`str(in_path).replace(str(Path(in_dir).absolute()), str(Path(out_dir).absolute()))`,
taking the already-absolutised path strings as inputs. -/
def compute_out_path (inDirAbs outDirAbs inPathAbs : String) : String :=
  pyReplace inPathAbs inDirAbs outDirAbs

/-- Modelled from the spec: the mirrored destination path, obtained by
replacing the leading source-root prefix of the candidate's absolute path
with the destination-root prefix and leaving the remainder (the part
relative to the source root) unchanged.  Stated only for comparison with
`compute_out_path`, the definition the source gives. -/
def specMirrorDest (inDirAbs outDirAbs inPathAbs : String) : String :=
  ⟨outDirAbs.toList ++ inPathAbs.toList.drop inDirAbs.length⟩

/-- Index of the last occurrence of `c` in the list, if any. -/
def lastIdxOf (c : Char) : List Char → Option ℕ
  | [] => none
  | a :: rest =>
    match lastIdxOf c rest with
    | some i => some (i + 1)
    | none => if a = c then some 0 else none

/-- Python `str.lower` on an ASCII character (the extension strings this
program compares are ASCII). -/
def lowerChar (c : Char) : Char :=
  if 'A' ≤ c ∧ c ≤ 'Z' then Char.ofNat (c.toNat + 32) else c

/-- Python `str.lower`, character-wise. -/
def lowerStr (s : String) : String := ⟨s.toList.map lowerChar⟩

/-- `pathlib.PurePath.suffix` of a path string: the final component's
extension from its last dot, empty unless that dot is neither the first
nor the last character of the name (`Path("a.txt").suffix = ".txt"`,
`Path(".bashrc").suffix = ""`, `Path("a.").suffix = ""`). -/
def pathSuffix (p : String) : String :=
  let name := (splitOnChar '/' p.toList).getLastD []
  match lastIdxOf '.' name with
  | none => ""
  | some i => if 0 < i ∧ i < name.length - 1 then ⟨name.drop i⟩ else ""

/-- The allowed-extension list built at the top of `add_date_in_dir_mt`:
`["." + str(i).lower() for i in config["img_exts"].split(",")]`. -/
def allowedExtsOf (imgExts : String) : List String :=
  (splitOnChar ',' imgExts.toList).map fun e => "." ++ (lowerStr ⟨e⟩)

/-- One unit of work the scheduler submits to the pool. -/
structure ImageTask where
  inPath : String
  outPath : String
  deriving DecidableEq, Repr

/-- The submission loop of `add_date_in_dir_mt` (pad lines 86–106, picdate
lines 117–137) over the enumerated candidates, given as absolute path
strings: skip a candidate whose lower-cased suffix is not allowed; compute
its out-path by string replacement; skip it when the out-path exists (a
static snapshot `existing` of the filesystem) and overwrite is off; skip
it when the in-path equals the out-path; submit the rest in order. -/
def add_date_in_dir_tasks (inDirAbs outDirAbs : String) (overwrite : Bool)
    (allowed : List String) (existing : List String) :
    List String → List ImageTask
  | [] => []
  | f :: fs =>
    let rest := add_date_in_dir_tasks inDirAbs outDirAbs overwrite allowed existing fs
    if lowerStr (pathSuffix f) ∉ allowed then rest
    else
      let out := compute_out_path inDirAbs outDirAbs f
      if ¬overwrite ∧ out ∈ existing then rest
      else if f = out then rest
      else ⟨f, out⟩ :: rest

/-! ## Concrete instances used by witnesses and counterexamples -/

/-- The CLI defaults of the picdate variant, as `cli` builds the config
dict (`text_size` 4.24 mm, positions 0.94, fine-tune ratio `"2/3"`);
the pad variant's dict simply lacks the picdate-only entries. -/
def cfgDefault : Config :=
  { fmt := "x", posX := 94 / 100, posY := 94 / 100, textSize := 106 / 25,
    fineTuneAspect := "2/3", quality := 95 }

/-- The default config with `--fine_tune_aspect_ratio 3/2` (an `M/N` ratio
with `M > N`). -/
def cfg32 : Config := { cfgDefault with fineTuneAspect := "3/2" }

/-- A landscape image whose EXIF metadata has a well-formed
DateTimeOriginal and orientation 6 (a 90° rotation, so its displayed
size is the transpose of its stored size). -/
def imgOriented : ImageData :=
  { width := 4000, height := 3000,
    exif := some { dateTimeOriginal := some "2023:05:01 10:00:00", orientation := 6 } }

/-- A landscape image with no EXIF metadata. -/
def imgPlain : ImageData := { width := 3000, height := 2000, exif := none }

/-- An image whose EXIF metadata has a present but malformed
DateTimeOriginal value. -/
def imgBadDate : ImageData :=
  { width := 3000, height := 2000,
    exif := some { dateTimeOriginal := some "garbage", orientation := 1 } }

/-- An environment in which every external step succeeds. -/
def envOf (img : ImageData) : Env :=
  { openResult := .ok img, mtime := 1700000000, fontLoad := .ok (),
    drawResult := .ok (), mkdirResult := .ok (), saveResult := .ok (),
    infoExifPresent := true }

/-- An environment whose image decode fails. -/
def envOpenFail : Env :=
  { envOf imgPlain with openResult := .error .openError }

/-! ## Claims -/

/-- Claim C1: for every image whose metadata contains a well-formed
DateTimeOriginal field (tag 36867), the date resolution shared by both
workers returns exactly the parsed instant with source
`metadataOriginal`; for every image whose metadata is absent or lacks the
field, it returns the file's modification timestamp with source
`fileModifiedTime`. -/
theorem resolve_date_metadata_or_mtime :
    (∀ (ex : ExifData) (mt : ℤ) (s : String) (d : PyDateTime),
        ex.dateTimeOriginal = some s → parseExifDate s = some d →
        resolve_date (some ex) mt = .ok ⟨d, .metadataOriginal⟩) ∧
    (∀ mt : ℤ, resolve_date none mt = .ok ⟨.ofTimestamp mt, .fileModifiedTime⟩) ∧
    (∀ (ex : ExifData) (mt : ℤ), ex.dateTimeOriginal = none →
        resolve_date (some ex) mt = .ok ⟨.ofTimestamp mt, .fileModifiedTime⟩) := by
  refine ⟨?_, ?_, ?_⟩
  · intro ex mt s d hs hp
    simp [resolve_date, hs, hp]
  · intro mt
    rfl
  · intro ex mt hs
    simp [resolve_date, hs]

/-- Witness for C1 at concrete inputs: a well-formed field is parsed with
source `metadataOriginal`; absent metadata falls back to the timestamp. -/
theorem resolve_date_metadata_or_mtime_witness :
    resolve_date (some ⟨some "2023:05:01 10:00:00", 1⟩) 5 =
      .ok ⟨.civil 2023 5 1 10 0 0 0, .metadataOriginal⟩ ∧
    resolve_date none 5 = .ok ⟨.ofTimestamp 5, .fileModifiedTime⟩ :=
  ⟨resolve_date_metadata_or_mtime.1 ⟨some "2023:05:01 10:00:00", 1⟩ 5 _ _ rfl (by decide),
   resolve_date_metadata_or_mtime.2.1 5⟩

/-- Claim C2: the single-image worker never propagates an exception: in
both variants, every failure of the pipeline body is converted by the
worker's catch-all into a per-task `failed` outcome (and every success
into `completed`), so the batch loop always yields one outcome per task
and one failing image never aborts the batch. -/
theorem add_date_to_img_isolates_failures :
    (∀ (cfg : Config) (env : Env) (e : WorkerError),
        picdate_add_date_to_img_body cfg env = .error e →
        picdate_add_date_to_img cfg env = .failed e) ∧
    (∀ (cfg : Config) (env : Env) (o : WorkerOutput),
        picdate_add_date_to_img_body cfg env = .ok o →
        picdate_add_date_to_img cfg env = .completed o) ∧
    (∀ (cfg : Config) (env : Env) (e : WorkerError),
        pad_add_date_to_img_body cfg env = .error e →
        pad_add_date_to_img cfg env = .failed e) ∧
    (∀ (cfg : Config) (env : Env) (o : WorkerOutput),
        pad_add_date_to_img_body cfg env = .ok o →
        pad_add_date_to_img cfg env = .completed o) ∧
    (∀ (worker : Config → Env → TaskOutcome) (cfg : Config) (envs : List Env),
        (runBatch worker cfg envs).length = envs.length) := by
  refine ⟨?_, ?_, ?_, ?_, ?_⟩
  · intro cfg env e h
    simp [picdate_add_date_to_img, h]
  · intro cfg env o h
    simp [picdate_add_date_to_img, h]
  · intro cfg env e h
    simp [pad_add_date_to_img, h]
  · intro cfg env o h
    simp [pad_add_date_to_img, h]
  · intro worker cfg envs
    simp [runBatch]

/-- Witness for C2 at a concrete input: a failed decode becomes a
per-task failure, and a one-task batch still yields one outcome. -/
theorem add_date_to_img_isolates_failures_witness :
    picdate_add_date_to_img cfgDefault envOpenFail = .failed .openError ∧
    (runBatch picdate_add_date_to_img cfgDefault [envOpenFail]).length = 1 :=
  ⟨add_date_to_img_isolates_failures.1 cfgDefault envOpenFail .openError rfl,
   add_date_to_img_isolates_failures.2.2.2.2 picdate_add_date_to_img cfgDefault [envOpenFail]⟩

/-- Claim C3: an image whose metadata has a present but malformed
DateTimeOriginal value makes the task fail (in both variants) rather
than fall back to the modification time, and the worker's render and
save steps are never consulted, so no output file is written. -/
theorem malformed_exif_date_aborts_task :
    ∀ (cfg : Config) (env : Env) (img : ImageData) (ex : ExifData) (s : String),
      env.openResult = .ok img → img.exif = some ex →
      ex.dateTimeOriginal = some s → parseExifDate s = none →
      picdate_add_date_to_img cfg env = .failed .valueError ∧
      pad_add_date_to_img cfg env = .failed .valueError ∧
      (∀ (fl dr mk sv : Except WorkerError Unit) (ie : Bool),
        picdate_add_date_to_img cfg
          { env with fontLoad := fl, drawResult := dr, mkdirResult := mk,
                     saveResult := sv, infoExifPresent := ie } = .failed .valueError) := by
  intro cfg env img ex s hopen hexif hdto hparse
  have hres : resolve_date img.exif env.mtime = .error .valueError := by
    simp [resolve_date, hexif, hdto, hparse]
  refine ⟨?_, ?_, ?_⟩
  · simp [picdate_add_date_to_img, picdate_add_date_to_img_body, hopen, hres]
  · simp [pad_add_date_to_img, pad_add_date_to_img_body, hopen, hres]
  · intro fl dr mk sv ie
    simp [picdate_add_date_to_img, picdate_add_date_to_img_body, hopen, hres]

/-- Witness for C3 at a concrete input: the EXIF value `"garbage"` fails
to parse and the task fails in both variants. -/
theorem malformed_exif_date_aborts_task_witness :
    picdate_add_date_to_img cfgDefault (envOf imgBadDate) = .failed .valueError ∧
    pad_add_date_to_img cfgDefault (envOf imgBadDate) = .failed .valueError := by
  have h := malformed_exif_date_aborts_task cfgDefault (envOf imgBadDate) imgBadDate
    ⟨some "garbage", 1⟩ "garbage" rfl rfl rfl (by decide)
  exact ⟨h.1, h.2.1⟩

/-- The geometry dimensions a task outcome used, `none` for a failed task. -/
def outcomeGeom : TaskOutcome → Option (ℕ × ℕ)
  | .completed o => some (o.geomW, o.geomH)
  | .failed _ => none

/-- A successful pad run on `imgOriented` keeps the stored raster size for
geometry (what `pad_orientation_not_applied_cex` exhibits). -/
def padOutOriented : WorkerOutput :=
  { date := ⟨.civil 2023 5 1 10 0 0 0, .metadataOriginal⟩,
    geomW := 4000, geomH := 3000, offsetW := 0, offsetH := 0,
    drawX := 3760, drawY := 2820, fontSize := 111, savedWithExif := true }

/-- Counterexample to claim C4: the pad variant, on an image whose
metadata is present (with orientation 6, which swaps displayed width and
height), measures the stored raster size `(4000, 3000)` for geometry, not
the orientation-corrected size `(3000, 4000)`: `pad.add_date_to_img`
reads `img.size` at line 14 and never calls `exif_transpose`. -/
theorem pad_orientation_not_applied_cex :
    outcomeGeom (pad_add_date_to_img cfgDefault (envOf imgOriented)) = some (4000, 3000) ∧
    exifTransposeSize 6 4000 3000 = (3000, 4000) ∧
    ((4000, 3000) : ℕ × ℕ) ≠ ((3000, 4000) : ℕ × ℕ) := by
  decide

theorem pad_body_geom_dims :
    ∀ (cfg : Config) (env : Env) (img : ImageData) (out : WorkerOutput),
      env.openResult = .ok img →
      pad_add_date_to_img_body cfg env = .ok out →
      (out.geomW, out.geomH) = (img.width, img.height) := by
  intro cfg env img out hopen hb
  unfold pad_add_date_to_img_body at hb
  rw [hopen] at hb
  split at hb <;> try simp_all
  split at hb <;> try simp_all
  split at hb <;> try simp_all
  split at hb <;> try simp_all
  split at hb <;> try simp_all
  split at hb <;> try simp_all
  subst hb
  simp

theorem picdate_body_geom_dims :
    ∀ (cfg : Config) (env : Env) (img : ImageData) (out : WorkerOutput),
      env.openResult = .ok img →
      picdate_add_date_to_img_body cfg env = .ok out →
      (out.geomW, out.geomH) = picdateGeomDims img := by
  intro cfg env img out hopen hb
  unfold picdate_add_date_to_img_body at hb
  rw [hopen] at hb
  split at hb <;> try simp_all
  split at hb <;> try simp_all
  split at hb <;> try simp_all
  split at hb <;> try simp_all
  split at hb <;> try simp_all
  split at hb <;> try simp_all
  split at hb <;> try simp_all
  subst hb
  simp

/-- Claim C4, amended: the pad variant never applies the stored
orientation — its geometry always uses the stored raster size — while the
picdate variant measures the orientation-corrected size exactly when the
metadata is present and contains the DateTimeOriginal field (tag 36867),
and the stored size otherwise (`picdateGeomDims`). -/
theorem geom_dims_by_variant :
    ∀ (cfg : Config) (env : Env) (img : ImageData) (out : WorkerOutput),
      env.openResult = .ok img →
      (pad_add_date_to_img cfg env = .completed out →
        (out.geomW, out.geomH) = (img.width, img.height)) ∧
      (picdate_add_date_to_img cfg env = .completed out →
        (out.geomW, out.geomH) = picdateGeomDims img) := by
  intro cfg env img out hopen
  constructor
  · intro hc
    unfold pad_add_date_to_img at hc
    rcases hb : pad_add_date_to_img_body cfg env with e | o <;> rw [hb] at hc
    · simp at hc
    · injection hc with h
      subst h
      exact pad_body_geom_dims cfg env img _ hopen hb
  · intro hc
    unfold picdate_add_date_to_img at hc
    rcases hb : picdate_add_date_to_img_body cfg env with e | o <;> rw [hb] at hc
    · simp at hc
    · injection hc with h
      subst h
      exact picdate_body_geom_dims cfg env img _ hopen hb

/-- Witness for the amended C4 at a concrete input: the open hypothesis
is discharged by `rfl` on the all-success environment for `imgOriented`. -/
theorem geom_dims_by_variant_witness :
    (pad_add_date_to_img cfgDefault (envOf imgOriented) = .completed padOutOriented →
      (padOutOriented.geomW, padOutOriented.geomH) = (imgOriented.width, imgOriented.height)) ∧
    (picdate_add_date_to_img cfgDefault (envOf imgOriented) = .completed padOutOriented →
      (padOutOriented.geomW, padOutOriented.geomH) = picdateGeomDims imgOriented) :=
  geom_dims_by_variant cfgDefault (envOf imgOriented) imgOriented padOutOriented rfl

theorem computeOffsetsE_at_most_one :
    ∀ (r : ℚ) (w h : ℕ) (ow oh : ℚ),
      computeOffsetsE r w h = .ok (ow, oh) → ow = 0 ∨ oh = 0 := by
  intro r w h ow oh hok
  unfold computeOffsetsE at hok
  split_ifs at hok <;> simp_all [Prod.ext_iff]

theorem computeOffsetsE_within_tolerance :
    ∀ (r : ℚ) (w h : ℕ), 0 < h → withinTolerance r w h = true →
      computeOffsetsE r w h = .ok (0, 0) := by
  intro r w h hh ht
  have hhq : (0 : ℚ) < (h : ℚ) := by exact_mod_cast hh
  have hhne : ¬(h = 0) := Nat.pos_iff_ne_zero.mp hh
  unfold withinTolerance at ht
  unfold computeOffsetsE
  by_cases hwh : w > h
  · rw [if_pos hwh] at ht
    rw [if_neg hhne, if_pos hwh]
    simp only [decide_eq_true_eq] at ht
    obtain ⟨ht1, ht2⟩ := abs_le.mp ht
    have hwq : (1 : ℚ) < (w : ℚ) / (h : ℚ) := by
      rw [one_lt_div hhq]
      exact_mod_cast hwh
    have hr : ¬(r = 0) := by
      intro h0
      rw [h0] at ht2
      norm_num at ht2
      linarith
    rw [if_neg hr, if_neg (by linarith), if_neg (by linarith)]
  · rw [if_neg hwh] at ht
    rw [if_neg hhne, if_neg hwh]
    simp only [decide_eq_true_eq] at ht
    obtain ⟨ht1, ht2⟩ := abs_le.mp ht
    rw [if_neg (by linarith), if_neg (by linarith)]

/-- Claim C5: the fine-tune geometry never yields two non-zero offsets:
whatever the configured ratio string and the dimensions, a successful
offset computation has `offsetW = 0` or `offsetH = 0`; both are zero when
the configured string is `"none"`, and both are zero whenever the image's
ratio is within the ±0.01 tolerance band of the target. -/
theorem geometry_offsets_exclusive :
    ∀ (s : String) (w h : ℕ),
      (∀ ow oh : ℚ, geometryOffsets s w h = .ok (ow, oh) → ow = 0 ∨ oh = 0) ∧
      (s = "none" → geometryOffsets s w h = .ok (0, 0)) ∧
      (∀ r : ℚ, parseFraction s = some r → 0 < h → withinTolerance r w h = true →
          geometryOffsets s w h = .ok (0, 0)) := by
  intro s w h
  refine ⟨?_, ?_, ?_⟩
  · intro ow oh hok
    unfold geometryOffsets at hok
    split_ifs at hok with hs
    · simp_all [Prod.ext_iff]
    · rcases hp : parseFraction s with _ | r <;> rw [hp] at hok
      · simp at hok
      · exact computeOffsetsE_at_most_one r w h ow oh hok
  · intro hs
    subst hs
    rfl
  · intro r hp hh ht
    unfold geometryOffsets
    split_ifs with hs
    · subst hs
      rw [show parseFraction "none" = none from by decide] at hp
    · rw [hp]
      exact computeOffsetsE_within_tolerance r w h hh ht

/-- Witness for C5 at a concrete input: with target ratio `2/3` a
300×200 image (ratio `3/2 = 1/(2/3)`, inside the tolerance band) gets
offsets `(0, 0)`. -/
theorem geometry_offsets_exclusive_witness :
    geometryOffsets "2/3" 300 200 = .ok (0, 0) :=
  (geometry_offsets_exclusive "2/3" 300 200).2.2 (2 / 3)
    (by
      have h1 : splitOnChar '/' ['2', '/', '3'] = [['2'], ['3']] := by decide
      have h2 : parseNatAll ['2'] = some 2 := by decide
      have h3 : parseNatAll ['3'] = some 3 := by decide
      simp [parseFraction, h1, h2, h3])
    (by decide)
    (by norm_num [withinTolerance])

/-- Claim C6 evidence: the out-path computation uses Python `str.replace`,
which substitutes every occurrence of the source-root string, not only the
leading prefix.  For the candidate `/data/sub/data/pic.jpg` under source
root `/data` and destination root `/out`, the code produces
`/out/sub/out/pic.jpg`, while prefix substitution (what the spec states)
produces `/out/sub/data/pic.jpg`. -/
theorem out_path_replaces_all_occurrences :
    compute_out_path "/data" "/out" "/data/sub/data/pic.jpg" = "/out/sub/out/pic.jpg" ∧
    specMirrorDest "/data" "/out" "/data/sub/data/pic.jpg" = "/out/sub/data/pic.jpg" ∧
    compute_out_path "/data" "/out" "/data/sub/data/pic.jpg" ≠
      specMirrorDest "/data" "/out" "/data/sub/data/pic.jpg" := by
  decide

/-- Claim C9 evidence: with source root `/a` and destination root `/b`,
the two distinct candidates `/a/a/x.jpg` and `/a/b/x.jpg` are both
submitted with the same resolved output path `/b/b/x.jpg` (a collision
caused by the replace-all out-path computation), so the submitted output
paths are not pairwise distinct; each submitted task does keep
`inPath ≠ outPath`. -/
theorem scheduler_submits_colliding_out_paths :
    add_date_in_dir_tasks "/a" "/b" true (allowedExtsOf "jpg,jpeg,png,tiff") []
        ["/a/a/x.jpg", "/a/b/x.jpg"] =
      [⟨"/a/a/x.jpg", "/b/b/x.jpg"⟩, ⟨"/a/b/x.jpg", "/b/b/x.jpg"⟩] ∧
    ¬ ((add_date_in_dir_tasks "/a" "/b" true (allowedExtsOf "jpg,jpeg,png,tiff") []
        ["/a/a/x.jpg", "/a/b/x.jpg"]).map ImageTask.outPath).Nodup ∧
    ((add_date_in_dir_tasks "/a" "/b" true (allowedExtsOf "jpg,jpeg,png,tiff") []
        ["/a/a/x.jpg", "/a/b/x.jpg"]).all fun t => t.inPath != t.outPath) = true := by
  decide

/-- Whether a task outcome is a successful completion. -/
def outcomeCompleted : TaskOutcome → Bool
  | .completed _ => true
  | .failed _ => false

/-- Counterexample to claim C7: under the configuration
`fine_tune_aspect_ratio = "3/2"` (an `M/N` ratio with `M > N`), the
picdate worker performs per-image processing as usual — on a 3000×2000
image with no metadata it completes, computing a width offset of `2500/3`
from the ratio — because neither `get_args` nor anything before task
submission validates `M ≤ N`. -/
theorem ratio_gt_one_still_processed_cex :
    picdate_add_date_to_img cfg32 (envOf imgPlain) =
      .completed { date := ⟨.ofTimestamp 1700000000, .fileModifiedTime⟩,
                   geomW := 3000, geomH := 2000, offsetW := 2500 / 3, offsetH := 0,
                   drawX := 6110 / 3, drawY := 1880, fontSize := 83,
                   savedWithExif := false } := by
  have h1 : splitOnChar '/' ['3', '/', '2'] = [['3'], ['2']] := by decide
  have h2 : parseNatAll ['3'] = some 3 := by decide
  have h3 : parseNatAll ['2'] = some 2 := by decide
  have hpf : parseFraction "3/2" = some (3 / 2) := by simp [parseFraction, h1, h2, h3]
  have hoff : geometryOffsets "3/2" 3000 2000 = .ok (2500 / 3, 0) := by
    unfold geometryOffsets
    rw [if_neg (by decide), hpf]
    unfold computeOffsetsE
    dsimp only
    rw [if_neg (by decide), if_pos (by decide), if_neg (by norm_num), if_pos (by norm_num)]
    norm_num
  have hfl : ⌊(106 / 25 * (3000 : ℚ)) / 152⌋ = (83 : ℤ) := by
    rw [Int.floor_eq_iff]
    norm_num
  have hfs : picdateFontSize 3000 2000 (106 / 25) = 83 := by
    unfold picdateFontSize floorDivQ pyInt
    norm_num [hfl]
  simp [picdate_add_date_to_img, picdate_add_date_to_img_body, envOf, imgPlain,
        cfg32, cfgDefault, resolve_date, picdateGeomDims, saveStep, hoff, hfs]
  norm_num

/-- Claim C7, amended: a configured fine-tune ratio `M/N` with `M > N` is
not rejected anywhere — no configuration validation exists — and the
picdate worker proceeds with per-image processing under it: with ratio
`"3/2"`, any image without metadata whose external steps succeed is
processed to completion. -/
theorem ratio_gt_one_accepted :
    ∀ (env : Env) (img : ImageData),
      env.openResult = .ok img → img.exif = none → 0 < img.height →
      env.fontLoad = .ok () → env.drawResult = .ok () →
      env.mkdirResult = .ok () → env.saveResult = .ok () →
      outcomeCompleted (picdate_add_date_to_img cfg32 env) = true := by
  intro env img hopen hexif hh hfl hdr hmk hsv
  have h1 : splitOnChar '/' ['3', '/', '2'] = [['3'], ['2']] := by decide
  have h2 : parseNatAll ['3'] = some 3 := by decide
  have h3 : parseNatAll ['2'] = some 2 := by decide
  have hpf : parseFraction "3/2" = some (3 / 2) := by simp [parseFraction, h1, h2, h3]
  obtain ⟨p, hp⟩ : ∃ p, geometryOffsets "3/2" img.width img.height = .ok p := by
    unfold geometryOffsets
    rw [if_neg (by decide), hpf]
    unfold computeOffsetsE
    dsimp only
    split_ifs <;> first
      | exact ⟨_, rfl⟩
      | (exfalso; omega)
      | (exfalso; norm_num at *)
  simp only [picdate_add_date_to_img, picdate_add_date_to_img_body, hopen, hexif,
             resolve_date, picdateGeomDims, saveStep, cfg32, cfgDefault, hp,
             hfl, hdr, hmk, hsv]
  rfl

/-- Witness for the amended C7 at a concrete input: the 3000×2000
metadata-less image under the all-success environment. -/
theorem ratio_gt_one_accepted_witness :
    outcomeCompleted (picdate_add_date_to_img cfg32 (envOf imgPlain)) = true :=
  ratio_gt_one_accepted (envOf imgPlain) imgPlain rfl rfl (by decide) rfl rfl rfl rfl

/-- Counterexample to claim C8: the picdate font size has no lower bound
of 1 — at the default text size 4.24 mm, a 35×20 image gets font size 0
(the code computes `int(4.24 * 35 // 152) = 0` and applies no clamp). -/
theorem picdate_font_size_zero_cex :
    picdateFontSize 35 20 (106 / 25) = 0 ∧ ¬(1 ≤ picdateFontSize 35 20 (106 / 25)) := by
  have hfl : ⌊(106 / 25 * (35 : ℚ)) / 152⌋ = (0 : ℤ) := by
    rw [Int.floor_eq_iff]
    norm_num
  have h : picdateFontSize 35 20 (106 / 25) = 0 := by
    unfold picdateFontSize floorDivQ pyInt
    norm_num [hfl]
  refine ⟨h, ?_⟩
  rw [h]
  decide

/-- Claim C8, amended: the pad font size is `max(width, height) // 36`,
and the picdate font size is `textSize * max(width, height) / 152`
truncated to an integer (its floor, for a non-negative text size) — with
no lower bound, so it can be 0. -/
theorem font_size_formulas :
    (∀ w h : ℕ, padFontSize w h = max w h / 36) ∧
    (∀ (w h : ℕ) (ts : ℚ), 0 ≤ ts →
        picdateFontSize w h ts = ⌊ts * ((max w h : ℕ) : ℚ) / 152⌋) := by
  constructor
  · intro w h
    have hmax : (if w > h then w else h) = max w h := by
      rcases le_or_lt w h with hle | hlt
      · rw [if_neg (by omega), Nat.max_eq_right hle]
      · rw [if_pos hlt, Nat.max_eq_left (le_of_lt hlt)]
    rw [padFontSize, hmax]
  · intro w h ts hts
    unfold picdateFontSize floorDivQ pyInt
    have hx : 0 ≤ ts * ((max w h : ℕ) : ℚ) / 152 :=
      div_nonneg (mul_nonneg hts (by positivity)) (by norm_num)
    rw [if_pos (by exact_mod_cast Int.floor_nonneg.mpr hx), Int.floor_intCast]

/-- Witness for the amended C8 at a concrete input: at text size 4.24 mm
on a 4000×3000 image the picdate size is the floor of the millimeter
formula. -/
theorem font_size_formulas_witness :
    picdateFontSize 4000 3000 (106 / 25) =
      ⌊(106 / 25 : ℚ) * ((max 4000 3000 : ℕ) : ℚ) / 152⌋ :=
  font_size_formulas.2 4000 3000 (106 / 25) (by norm_num)

theorem draw_coord_bounds : ∀ (wq a p : ℚ), 0 ≤ a → a < wq → 0 ≤ p → p ≤ 1 →
    0 ≤ (wq - a) * p ∧ (wq - a) * p ≤ wq := by
  intro wq a p ha haW hp hp1
  constructor
  · exact mul_nonneg (by linarith) hp
  · have hrest := mul_nonneg (show (0 : ℚ) ≤ wq - a by linarith)
      (show (0 : ℚ) ≤ 1 - p by linarith)
    nlinarith

theorem offsets_in_bounds :
    ∀ (w h : ℕ) (r ow oh : ℚ),
      1 ≤ w → 1 ≤ h → 0 < r → r ≤ 1 →
      computeOffsetsE r w h = .ok (ow, oh) →
      0 ≤ ow ∧ ow < w ∧ 0 ≤ oh ∧ oh < h := by
  intro w h r ow oh hw hh hr hrle hok
  have hwq : (1 : ℚ) ≤ (w : ℚ) := by exact_mod_cast hw
  have hhq : (1 : ℚ) ≤ (h : ℚ) := by exact_mod_cast hh
  have hhq0 : (0 : ℚ) < (h : ℚ) := by linarith
  have hwq0 : (0 : ℚ) < (w : ℚ) := by linarith
  have hinv : (0 : ℚ) < 1 / r := by positivity
  have hcancel : r * (1 / r) = 1 := mul_one_div_cancel (ne_of_gt hr)
  unfold computeOffsetsE at hok
  rw [if_neg (by omega)] at hok
  by_cases hwh : w > h
  · rw [if_pos hwh, if_neg (ne_of_gt hr)] at hok
    by_cases hg1 : (w : ℚ) / (h : ℚ) > 1 / r + 1 / 100
    · rw [if_pos hg1] at hok
      simp only [Except.ok.injEq, Prod.mk.injEq] at hok
      obtain ⟨how, hoh⟩ := hok
      subst how
      subst hoh
      have key : (1 / r + 1 / 100) * (h : ℚ) < (w : ℚ) := (lt_div_iff₀ hhq0).mp hg1
      have hpos : 0 < 1 / r * (h : ℚ) := mul_pos hinv hhq0
      refine ⟨by nlinarith, by nlinarith, le_refl 0, by linarith⟩
    · rw [if_neg hg1] at hok
      by_cases hg2 : (w : ℚ) / (h : ℚ) < 1 / r - 1 / 100
      · rw [if_pos hg2] at hok
        simp only [Except.ok.injEq, Prod.mk.injEq] at hok
        obtain ⟨how, hoh⟩ := hok
        subst how
        subst hoh
        have key : (w : ℚ) < (1 / r - 1 / 100) * (h : ℚ) := (div_lt_iff₀ hhq0).mp hg2
        have key2 : r * (w : ℚ) < r * ((1 / r - 1 / 100) * (h : ℚ)) :=
          mul_lt_mul_of_pos_left key hr
        have hrw0 : 0 ≤ r * (w : ℚ) := mul_nonneg (le_of_lt hr) (le_of_lt hwq0)
        have hrh0 : 0 ≤ r * (h : ℚ) := mul_nonneg (le_of_lt hr) (le_of_lt hhq0)
        refine ⟨le_refl 0, by linarith, by nlinarith, by nlinarith⟩
      · rw [if_neg hg2] at hok
        simp only [Except.ok.injEq, Prod.mk.injEq] at hok
        obtain ⟨how, hoh⟩ := hok
        subst how
        subst hoh
        exact ⟨le_refl 0, by linarith, le_refl 0, by linarith⟩
  · rw [if_neg hwh] at hok
    by_cases hg1 : (w : ℚ) / (h : ℚ) > r + 1 / 100
    · rw [if_pos hg1] at hok
      simp only [Except.ok.injEq, Prod.mk.injEq] at hok
      obtain ⟨how, hoh⟩ := hok
      subst how
      subst hoh
      have key : (r + 1 / 100) * (h : ℚ) < (w : ℚ) := (lt_div_iff₀ hhq0).mp hg1
      have hrh0 : 0 ≤ r * (h : ℚ) := mul_nonneg (le_of_lt hr) (le_of_lt hhq0)
      refine ⟨by nlinarith, by nlinarith, le_refl 0, by linarith⟩
    · rw [if_neg hg1] at hok
      by_cases hg2 : (w : ℚ) / (h : ℚ) < r - 1 / 100
      · rw [if_pos hg2, if_neg (ne_of_gt hr)] at hok
        simp only [Except.ok.injEq, Prod.mk.injEq] at hok
        obtain ⟨how, hoh⟩ := hok
        subst how
        subst hoh
        have key : (w : ℚ) < (r - 1 / 100) * (h : ℚ) := (div_lt_iff₀ hhq0).mp hg2
        have key2 : 1 / r * (w : ℚ) < 1 / r * ((r - 1 / 100) * (h : ℚ)) :=
          mul_lt_mul_of_pos_left key hinv
        have hiw0 : 0 ≤ 1 / r * (w : ℚ) := mul_nonneg (le_of_lt hinv) (le_of_lt hwq0)
        have hih0 : 0 < 1 / r * (h : ℚ) := mul_pos hinv hhq0
        refine ⟨le_refl 0, by linarith, by nlinarith [mul_comm r (1 / r)], by nlinarith⟩
      · rw [if_neg hg2] at hok
        simp only [Except.ok.injEq, Prod.mk.injEq] at hok
        obtain ⟨how, hoh⟩ := hok
        subst how
        subst hoh
        exact ⟨le_refl 0, by linarith, le_refl 0, by linarith⟩

/-- Claim C10: for positive dimensions, a target ratio in `(0, 1]` and
position fractions in `[0, 1]`, the computed offsets satisfy
`0 ≤ offsetW < width` and `0 ≤ offsetH < height`, and the draw
coordinates `(width - offsetW) * posX` and `(height - offsetH) * posY`
lie inside the image rectangle. -/
theorem geometry_within_image_bounds :
    ∀ (w h : ℕ) (r px py ow oh : ℚ),
      1 ≤ w → 1 ≤ h → 0 < r → r ≤ 1 →
      0 ≤ px → px ≤ 1 → 0 ≤ py → py ≤ 1 →
      computeOffsetsE r w h = .ok (ow, oh) →
      (0 ≤ ow ∧ ow < w ∧ 0 ≤ oh ∧ oh < h) ∧
      (0 ≤ ((w : ℚ) - ow) * px ∧ ((w : ℚ) - ow) * px ≤ w ∧
       0 ≤ ((h : ℚ) - oh) * py ∧ ((h : ℚ) - oh) * py ≤ h) := by
  intro w h r px py ow oh hw hh hr hrle hpx0 hpx1 hpy0 hpy1 hok
  obtain ⟨b1, b2, b3, b4⟩ := offsets_in_bounds w h r ow oh hw hh hr hrle hok
  obtain ⟨d1, d2⟩ := draw_coord_bounds (w : ℚ) ow px b1 b2 hpx0 hpx1
  obtain ⟨d3, d4⟩ := draw_coord_bounds (h : ℚ) oh py b3 b4 hpy0 hpy1
  exact ⟨⟨b1, b2, b3, b4⟩, d1, d2, d3, d4⟩

/-- Witness for C10 at a concrete input: a 300×200 image with ratio
`2/3` and the default positions, whose offsets are `(0, 0)`. -/
theorem geometry_within_image_bounds_witness :
    (0 ≤ (0 : ℚ) ∧ (0 : ℚ) < ((300 : ℕ) : ℚ) ∧ 0 ≤ (0 : ℚ) ∧ (0 : ℚ) < ((200 : ℕ) : ℚ)) ∧
    (0 ≤ (((300 : ℕ) : ℚ) - 0) * (94 / 100) ∧
     (((300 : ℕ) : ℚ) - 0) * (94 / 100) ≤ ((300 : ℕ) : ℚ) ∧
     0 ≤ (((200 : ℕ) : ℚ) - 0) * (94 / 100) ∧
     (((200 : ℕ) : ℚ) - 0) * (94 / 100) ≤ ((200 : ℕ) : ℚ)) :=
  geometry_within_image_bounds 300 200 (2 / 3) (94 / 100) (94 / 100) 0 0
    (by norm_num) (by norm_num) (by norm_num) (by norm_num)
    (by norm_num) (by norm_num) (by norm_num) (by norm_num)
    (by
      unfold computeOffsetsE
      rw [if_neg (by decide), if_pos (by decide), if_neg (by norm_num),
          if_neg (by norm_num), if_neg (by norm_num)])
